import Mathlib

/-!
Verification of the digital-garden realtime core against its specification.

The JavaScript sources are shallowly embedded: numbers become `ℚ` (all the
constants involved are decimal literals, which `ℚ` represents exactly),
JS objects become structures, the socket.io relay becomes an explicit state
machine over a heap of player objects (mirroring JS reference semantics),
and each socket handler becomes a function from state to state plus a list
of emitted events.
-/

namespace DigitalGarden

/-! ## Tile types and zone lists, from src/client/src/game/Map.js (TILE_TYPES,
WALKABLE_TILES, FLOWER_ZONES). -/

namespace TileTypes

def GRASS : Nat := 0

def PATH : Nat := 1

def HOUSE : Nat := 2

def WATER : Nat := 3

def LAMPPOST : Nat := 4

def TREE : Nat := 5

def FENCE : Nat := 6

def FLOWER_BED : Nat := 7

def DENSE_TREE : Nat := 8

def GRASS_DARK : Nat := 9

def ROOF : Nat := 10

def DOOR : Nat := 11

end TileTypes

def WALKABLE_TILES : List Nat :=
  [TileTypes.GRASS, TileTypes.PATH, TileTypes.FLOWER_BED, TileTypes.GRASS_DARK]

def FLOWER_ZONES : List Nat :=
  [TileTypes.GRASS, TileTypes.FLOWER_BED, TileTypes.GRASS_DARK]

/-- The `GameMap` of src/client/src/game/Map.js.  The constructor always sets
`tileSize = 48`, `widthInTiles = 50`, `heightInTiles = 35`, so those are
modelled as constants below.  The generated tile grid (`generateMap`, driven
by `Math.random`) is abstracted as an arbitrary function: the claims proved
here hold for every generated grid.  Render-only state (`flowers` drawing
cache, `grassPatterns`) is omitted. -/
structure GameMap where
  tiles : Int → Int → Nat

namespace GameMap

def tileSize : ℚ := 48

def widthInTiles : Int := 50

def heightInTiles : Int := 35

def width : ℚ := (widthInTiles : ℚ) * tileSize

def height : ℚ := (heightInTiles : ℚ) * tileSize

/-- `GameMap.getTile`: out-of-range tile coordinates classify as
`DENSE_TREE`. -/
def getTile (m : GameMap) (tileX tileY : Int) : Nat :=
  if tileX < 0 ∨ widthInTiles ≤ tileX ∨ tileY < 0 ∨ heightInTiles ≤ tileY then
    TileTypes.DENSE_TREE
  else
    m.tiles tileX tileY

/-- `GameMap.isWalkable`. -/
def isWalkable (m : GameMap) (tileX tileY : Int) : Bool :=
  WALKABLE_TILES.contains (m.getTile tileX tileY)

/-- `GameMap.isFlowerZone`. -/
def isFlowerZone (m : GameMap) (tileX tileY : Int) : Bool :=
  FLOWER_ZONES.contains (m.getTile tileX tileY)

end GameMap

/-- The `Collision` class of src/client/src/game/Collision.js. -/
structure Collision where
  map : GameMap

namespace Collision

/-- `Collision.isWalkable` on world coordinates. -/
def isWalkable (c : Collision) (x y : ℚ) : Bool :=
  c.map.isWalkable ⌊x / GameMap.tileSize⌋ ⌊y / GameMap.tileSize⌋

/-- `Collision.isAreaWalkable`: bottom-left, bottom-right and bottom-center
sample points. -/
def isAreaWalkable (c : Collision) (x y width height : ℚ) : Bool :=
  c.isWalkable (x + 4) (y + height - 4) &&
  c.isWalkable (x + width - 4) (y + height - 4) &&
  c.isWalkable (x + width / 2) (y + height - 4)

/-- `Collision.canPlaceFlower`. -/
def canPlaceFlower (c : Collision) (x y : ℚ) : Bool :=
  c.map.isFlowerZone ⌊x / GameMap.tileSize⌋ ⌊y / GameMap.tileSize⌋

/-- `Collision.getTileAt`. -/
def getTileAt (c : Collision) (x y : ℚ) : Nat :=
  c.map.getTile ⌊x / GameMap.tileSize⌋ ⌊y / GameMap.tileSize⌋

end Collision

/-- Out-of-bounds world coordinates land on an out-of-range tile
coordinate. -/
theorem floor_tile_oob (x y : ℚ)
    (h : x < 0 ∨ GameMap.width ≤ x ∨ y < 0 ∨ GameMap.height ≤ y) :
    ⌊x / GameMap.tileSize⌋ < 0 ∨ GameMap.widthInTiles ≤ ⌊x / GameMap.tileSize⌋ ∨
    ⌊y / GameMap.tileSize⌋ < 0 ∨ GameMap.heightInTiles ≤ ⌊y / GameMap.tileSize⌋ := by
  have hts : (0 : ℚ) < GameMap.tileSize := by norm_num [GameMap.tileSize]
  rcases h with h | h | h | h
  · left
    have : x / GameMap.tileSize < 0 := div_neg_of_neg_of_pos h hts
    exact_mod_cast Int.floor_lt.2 (by exact_mod_cast this)
  · right; left
    have : (GameMap.widthInTiles : ℚ) ≤ x / GameMap.tileSize := by
      rw [le_div_iff₀ hts]
      simpa [GameMap.width, mul_comm] using h
    exact Int.le_floor.2 this
  · right; right; left
    have : y / GameMap.tileSize < 0 := div_neg_of_neg_of_pos h hts
    exact_mod_cast Int.floor_lt.2 (by exact_mod_cast this)
  · right; right; right
    have : (GameMap.heightInTiles : ℚ) ≤ y / GameMap.tileSize := by
      rw [le_div_iff₀ hts]
      simpa [GameMap.height, mul_comm] using h
    exact Int.le_floor.2 this

/-- Claim C5: for every world coordinate outside
`[0, mapWidth) × [0, mapHeight)`, the collision oracle's `isWalkable` is
false and `canPlaceFlower` is false, for every generated tile grid: such
positions classify as the impassable `DENSE_TREE` boundary tile, which is in
neither the walkable set nor the flower-zone set. -/
theorem oob_never_walkable_never_plantable (m : GameMap) (x y : ℚ)
    (h : x < 0 ∨ GameMap.width ≤ x ∨ y < 0 ∨ GameMap.height ≤ y) :
    (Collision.mk m).isWalkable x y = false ∧
    (Collision.mk m).canPlaceFlower x y = false ∧
    (Collision.mk m).getTileAt x y = TileTypes.DENSE_TREE := by
  have hoob := floor_tile_oob x y h
  have hTile : GameMap.getTile m ⌊x / GameMap.tileSize⌋ ⌊y / GameMap.tileSize⌋ =
      TileTypes.DENSE_TREE := by
    unfold GameMap.getTile
    rw [if_pos hoob]
  refine ⟨?_, ?_, ?_⟩
  · simp [Collision.isWalkable, GameMap.isWalkable, hTile]
    decide
  · simp [Collision.canPlaceFlower, GameMap.isFlowerZone, hTile]
    decide
  · simpa [Collision.getTileAt] using hTile

/-- Witness for C5 at the concrete out-of-bounds coordinate `(-1, 0)` on an
all-grass grid. -/
theorem oob_never_walkable_never_plantable_witness :
    ((-1 : ℚ) < 0 ∨ GameMap.width ≤ -1 ∨ (0 : ℚ) < 0 ∨ GameMap.height ≤ 0) ∧
    ((Collision.mk ⟨fun _ _ => TileTypes.GRASS⟩).isWalkable (-1) 0 = false ∧
     (Collision.mk ⟨fun _ _ => TileTypes.GRASS⟩).canPlaceFlower (-1) 0 = false ∧
     (Collision.mk ⟨fun _ _ => TileTypes.GRASS⟩).getTileAt (-1) 0 = TileTypes.DENSE_TREE) :=
  ⟨Or.inl (by norm_num),
   oob_never_walkable_never_plantable ⟨fun _ _ => TileTypes.GRASS⟩ (-1) 0
     (Or.inl (by norm_num))⟩

/-! ## Player entity, from src/client/src/game/Player.js. -/

namespace DIRECTIONS

def DOWN : Nat := 0

def LEFT : Nat := 1

def RIGHT : Nat := 2

def UP : Nat := 3

end DIRECTIONS

/-- One entry of `positionHistory`: a past `{x, y, direction}` sample. -/
structure HistoryEntry where
  x : ℚ
  y : ℚ
  direction : Nat
deriving DecidableEq, Repr

/-- The `Player` class.  Fields that only feed rendering and are never read
by movement, history or network logic are omitted: `color` (hash of the id),
and the bounce fields `bounceOffset`/`bounceTimer` (a damped `Math.sin`
wave). -/
structure Player where
  id : String
  nickname : String
  x : ℚ
  y : ℚ
  isLocal : Bool
  speed : ℚ
  direction : Nat
  isMoving : Bool
  velocityX : ℚ
  velocityY : ℚ
  animationFrame : Nat
  animationTimer : ℚ
  animationSpeed : ℚ
  width : ℚ
  height : ℚ
  positionHistory : List HistoryEntry
  maxHistoryLength : Nat
deriving DecidableEq, Repr

namespace Player

/-- The `Player` constructor. -/
def mkNew (id nickname : String) (x y : ℚ) (isLocal : Bool) : Player :=
  { id := id, nickname := nickname, x := x, y := y, isLocal := isLocal
    speed := 4, direction := DIRECTIONS.DOWN, isMoving := false
    velocityX := 0, velocityY := 0
    animationFrame := 0, animationTimer := 0, animationSpeed := 120
    width := 36, height := 48
    positionHistory := [], maxHistoryLength := 30 }

/-- `Player.setVelocity`: store the velocity, derive the facing direction
(ties between the axes resolve to the vertical branch), set the moving
flag. -/
def setVelocity (p : Player) (vx vy : ℚ) : Player :=
  let direction :=
    if |vx| > |vy| then (if vx > 0 then DIRECTIONS.RIGHT else DIRECTIONS.LEFT)
    else if vy ≠ 0 then (if vy > 0 then DIRECTIONS.DOWN else DIRECTIONS.UP)
    else p.direction
  { p with velocityX := vx, velocityY := vy, direction := direction
           isMoving := decide (vx ≠ 0 ∨ vy ≠ 0) }

/-- `Player.update`: per-axis collision-checked integration, history append
with oldest-first eviction, then walking-animation bookkeeping.  The Y check
uses the already-updated X, exactly as in the source. -/
def update (p : Player) (deltaTime : ℚ) (collision : Option Collision) : Player :=
  let newX := p.x + p.velocityX * p.speed
  let newY := p.y + p.velocityY * p.speed
  let pos : ℚ × ℚ :=
    match collision with
    | some c =>
      let x1 := if p.velocityX ≠ 0 ∧
          c.isAreaWalkable (newX - p.width / 2) (p.y - p.height / 2) p.width p.height
        then newX else p.x
      let y1 := if p.velocityY ≠ 0 ∧
          c.isAreaWalkable (x1 - p.width / 2) (newY - p.height / 2) p.width p.height
        then newY else p.y
      (x1, y1)
    | none => (newX, newY)
  let hist :=
    if p.isMoving then
      let pushed := p.positionHistory ++ [⟨pos.1, pos.2, p.direction⟩]
      if pushed.length > p.maxHistoryLength then pushed.tail else pushed
    else p.positionHistory
  let anim : Nat × ℚ :=
    if p.isMoving then
      let t := p.animationTimer + deltaTime
      if t ≥ p.animationSpeed then ((p.animationFrame + 1) % 4, 0)
      else (p.animationFrame, t)
    else (0, p.animationTimer)
  { p with x := pos.1, y := pos.2, positionHistory := hist
           animationFrame := anim.1, animationTimer := anim.2 }

/-- `Player.getHistoricalPosition`: index `max 0 (length - 1 - stepsBack)`
into the history, falling back to the live position when the history is
empty.  `Nat` subtraction is exactly the `Math.max(0, ...)` clamp. -/
def getHistoricalPosition (p : Player) (stepsBack : Nat) : HistoryEntry :=
  p.positionHistory.getD (p.positionHistory.length - 1 - stepsBack)
    ⟨p.x, p.y, p.direction⟩

/-- Run a sequence of frames.  Each frame mirrors the per-frame sequence of
`Engine.update` (src/client/src/game/Engine.js): `setVelocity` with the
frame's computed input velocity, then `update` with the frame's elapsed
time and collision oracle.  Quantifying over arbitrary velocity pairs
covers every velocity the engine's input computation can hand in. -/
def runFrames (p : Player)
    (frames : List ((ℚ × ℚ) × ℚ × Option Collision)) : Player :=
  frames.foldl (fun q f => (q.setVelocity f.1.1 f.1.2).update f.2.1 f.2.2) p

end Player

/-! ## Velocity computation of the simulation loop, from `Engine.update`
(src/client/src/game/Engine.js): input keys resolve to a velocity vector and
diagonals are scaled by the literal factor `0.707`. -/

structure Keys where
  up : Bool
  down : Bool
  left : Bool
  right : Bool
deriving DecidableEq, Repr

namespace Engine

/-- The velocity computation at the top of `Engine.update`. -/
def computeVelocity (keys : Keys) : ℚ × ℚ :=
  let vy : ℚ := (if keys.up then -1 else 0) + (if keys.down then 1 else 0)
  let vx : ℚ := (if keys.left then -1 else 0) + (if keys.right then 1 else 0)
  if vx ≠ 0 ∧ vy ≠ 0 then (vx * (0.707 : ℚ), vy * (0.707 : ℚ)) else (vx, vy)

end Engine

/-! ## Position-history properties (claim C6). -/

theorem getD_concat {α : Type} (l : List α) (a d : α) :
    (l ++ [a]).getD l.length d = a := by
  induction l with
  | nil => rfl
  | cons h t ih => simp

theorem tail_concat {α : Type} (l : List α) (a : α) (h : l ≠ []) :
    (l ++ [a]).tail = l.tail ++ [a] := by
  cases l with
  | nil => exact absurd rfl h
  | cons x xs => simp

/-- `Player.update` never changes the history capacity. -/
theorem update_maxHistoryLength (p : Player) (dt : ℚ) (col : Option Collision) :
    (p.update dt col).maxHistoryLength = p.maxHistoryLength := rfl

/-- One frame keeps the history length within capacity. -/
theorem update_history_length_le (p : Player) (dt : ℚ) (col : Option Collision)
    (h : p.positionHistory.length ≤ p.maxHistoryLength) :
    (p.update dt col).positionHistory.length ≤ p.maxHistoryLength := by
  unfold Player.update
  cases hm : p.isMoving <;> simp only [hm, Bool.false_eq_true, if_true, if_false]
  · exact h
  · split
    · simpa using Nat.le_of_lt_succ (by simpa using h.trans_lt (Nat.lt_succ_self _))
    · next hgt => simpa using Nat.le_of_not_lt (by simpa using hgt)

/-- `Player.setVelocity` touches neither the history nor its capacity. -/
theorem setVelocity_positionHistory (p : Player) (vx vy : ℚ) :
    (p.setVelocity vx vy).positionHistory = p.positionHistory ∧
    (p.setVelocity vx vy).maxHistoryLength = p.maxHistoryLength :=
  ⟨rfl, rfl⟩

/-- Capacity and boundedness are preserved along any run of
`setVelocity`-then-`update` frames. -/
theorem runFrames_invariant (frames : List ((ℚ × ℚ) × ℚ × Option Collision))
    (p : Player) (h : p.positionHistory.length ≤ p.maxHistoryLength) :
    (Player.runFrames p frames).maxHistoryLength = p.maxHistoryLength ∧
    (Player.runFrames p frames).positionHistory.length ≤ p.maxHistoryLength := by
  induction frames generalizing p with
  | nil => exact ⟨rfl, h⟩
  | cons f fs ih =>
    have step := ih ((p.setVelocity f.1.1 f.1.2).update f.2.1 f.2.2)
      (update_history_length_le (p.setVelocity f.1.1 f.1.2) f.2.1 f.2.2 h)
    exact ⟨step.1, step.2⟩

/-- On a moving frame the history is the old one with the new position
sample appended, dropping the head when over capacity. -/
theorem update_positionHistory_moving (p : Player) (dt : ℚ) (col : Option Collision)
    (hm : p.isMoving = true) :
    (p.update dt col).positionHistory =
      if p.positionHistory.length + 1 > p.maxHistoryLength then
        (p.positionHistory ++
          [(⟨(p.update dt col).x, (p.update dt col).y,
             p.direction⟩ : HistoryEntry)]).tail
      else
        p.positionHistory ++
          [(⟨(p.update dt col).x, (p.update dt col).y,
             p.direction⟩ : HistoryEntry)] := by
  cases col <;> simp [Player.update, hm]

/-- `Player.update` never changes the facing direction. -/
theorem update_direction (p : Player) (dt : ℚ) (col : Option Collision) :
    (p.update dt col).direction = p.direction := rfl

/-- Claim C6: for every sequence of frames — each a `setVelocity` with an
arbitrary input velocity followed by an `update`, as in `Engine.update` —
the position history never exceeds its fixed capacity of 30; when full, a
moving frame evicts the oldest sample (the history becomes its tail plus
the new sample appended); after any moving frame, `getHistoricalPosition`
with 0 steps back returns the sample just appended (the entity's new
position); and a moving frame below capacity grows the history by exactly
one sample, so the bounded runs genuinely append. -/
theorem position_history_ring_buffer :
    (∀ (id nickname : String) (x y : ℚ) (isLocal : Bool)
        (frames : List ((ℚ × ℚ) × ℚ × Option Collision)),
      (Player.runFrames (Player.mkNew id nickname x y isLocal)
          frames).positionHistory.length ≤ 30) ∧
    (∀ (p : Player) (dt : ℚ) (col : Option Collision),
      p.isMoving = true → p.positionHistory.length = p.maxHistoryLength →
      0 < p.maxHistoryLength →
      (p.update dt col).positionHistory =
        p.positionHistory.tail ++
          [⟨(p.update dt col).x, (p.update dt col).y, p.direction⟩]) ∧
    (∀ (p : Player) (dt : ℚ) (col : Option Collision),
      p.isMoving = true →
      (p.update dt col).getHistoricalPosition 0 =
        ⟨(p.update dt col).x, (p.update dt col).y, p.direction⟩) ∧
    (∀ (p : Player) (dt : ℚ) (col : Option Collision),
      p.isMoving = true → p.positionHistory.length < p.maxHistoryLength →
      (p.update dt col).positionHistory.length =
        p.positionHistory.length + 1) := by
  refine ⟨?_, ?_, ?_, ?_⟩
  · intro id nickname x y isLocal frames
    exact (runFrames_invariant frames _ (by simp [Player.mkNew])).2
  · intro p dt col hm hfull hpos
    have hne : p.positionHistory ≠ [] := by
      have : 0 < p.positionHistory.length := by omega
      exact List.ne_nil_of_length_pos this
    rw [update_positionHistory_moving p dt col hm, if_pos (by omega)]
    exact tail_concat _ _ hne
  · intro p dt col hm
    unfold Player.getHistoricalPosition
    rw [update_positionHistory_moving p dt col hm]
    rw [show (⟨(p.update dt col).x, (p.update dt col).y,
        (p.update dt col).direction⟩ : HistoryEntry) =
        ⟨(p.update dt col).x, (p.update dt col).y, p.direction⟩ by
      rw [update_direction]]
    split
    · cases hl : p.positionHistory with
      | nil => simp
      | cons a t =>
        simp only [List.cons_append, List.tail_cons]
        have hidx : (t ++ [(⟨(p.update dt col).x, (p.update dt col).y,
            p.direction⟩ : HistoryEntry)]).length - 1 - 0 = t.length := by
          simp
        rw [hidx, getD_concat]
    · have hidx : (p.positionHistory ++
          [(⟨(p.update dt col).x, (p.update dt col).y,
             p.direction⟩ : HistoryEntry)]).length - 1 - 0 =
          p.positionHistory.length := by
        simp
      rw [hidx, getD_concat]
  · intro p dt col hm hlt
    rw [update_positionHistory_moving p dt col hm, if_neg (by omega)]
    simp

/-- Witness for C6: a two-frame moving run from a fresh player stays within
capacity, a concrete moving player below capacity appends exactly one
sample, and the new sample is what 0 steps back reports. -/
theorem position_history_ring_buffer_witness :
    ((Player.runFrames (Player.mkNew "p" "P" 0 0 true)
        [((1, 0), 16, none), ((0, 1), 16, none)]).positionHistory.length ≤ 30) ∧
    (((Player.mkNew "p" "P" 0 0 true).setVelocity 1 0).isMoving = true ∧
     ((Player.mkNew "p" "P" 0 0 true).setVelocity 1 0).positionHistory.length <
       ((Player.mkNew "p" "P" 0 0 true).setVelocity 1 0).maxHistoryLength ∧
     (((Player.mkNew "p" "P" 0 0 true).setVelocity 1 0).update 16
         none).positionHistory.length =
       ((Player.mkNew "p" "P" 0 0 true).setVelocity 1 0).positionHistory.length
         + 1) ∧
    (((Player.mkNew "p" "P" 0 0 true).setVelocity 1 0).update 16
        none).getHistoricalPosition 0 =
      ⟨((((Player.mkNew "p" "P" 0 0 true).setVelocity 1 0)).update 16 none).x,
       ((((Player.mkNew "p" "P" 0 0 true).setVelocity 1 0)).update 16 none).y,
       ((Player.mkNew "p" "P" 0 0 true).setVelocity 1 0).direction⟩ :=
  ⟨position_history_ring_buffer.1 "p" "P" 0 0 true
     [((1, 0), 16, none), ((0, 1), 16, none)],
   ⟨by decide, by decide,
    position_history_ring_buffer.2.2.2
      ((Player.mkNew "p" "P" 0 0 true).setVelocity 1 0) 16 none (by decide)
      (by decide)⟩,
   position_history_ring_buffer.2.2.1
     ((Player.mkNew "p" "P" 0 0 true).setVelocity 1 0) 16 none (by decide)⟩

/-! ## Diagonal-speed properties (claim C7). -/

/-- Counterexample to claim C7 as stated: with both the up and right keys
held, the computed velocity has squared magnitude `2 * 0.707 ^ 2 =
0.999698`, which differs from the squared magnitude `1` of a single-axis
input — the source scales diagonals by the literal `0.707`, not by
`1 / Real.sqrt 2`, so diagonal speed is close to but not equal to axis
speed. -/
theorem diagonal_speed_counterexample :
    (Engine.computeVelocity ⟨true, false, false, true⟩).1 ^ 2 +
      (Engine.computeVelocity ⟨true, false, false, true⟩).2 ^ 2 ≠
    (Engine.computeVelocity ⟨true, false, false, false⟩).1 ^ 2 +
      (Engine.computeVelocity ⟨true, false, false, false⟩).2 ^ 2 := by
  norm_num [Engine.computeVelocity]

/-- Claim C7 (amended): for every input-key state, a diagonal input's
velocity components are scaled by the literal factor `0.707`, giving
squared magnitude exactly `0.999698` — within `1 / 1000` of the axial
squared magnitude `1`, but not equal to it — while a single-axis input has
squared magnitude exactly `1`; `setVelocity` hands exactly this vector to
the player. -/
theorem diagonal_speed_approx (u d l r : Bool) :
    ((Engine.computeVelocity ⟨u, d, l, r⟩).1 ≠ 0 ∧
       (Engine.computeVelocity ⟨u, d, l, r⟩).2 ≠ 0 →
      (Engine.computeVelocity ⟨u, d, l, r⟩).1 ^ 2 +
          (Engine.computeVelocity ⟨u, d, l, r⟩).2 ^ 2 = 999698 / 1000000 ∧
      999 / 1000 < (Engine.computeVelocity ⟨u, d, l, r⟩).1 ^ 2 +
          (Engine.computeVelocity ⟨u, d, l, r⟩).2 ^ 2 ∧
      (Engine.computeVelocity ⟨u, d, l, r⟩).1 ^ 2 +
          (Engine.computeVelocity ⟨u, d, l, r⟩).2 ^ 2 < 1) ∧
    (((Engine.computeVelocity ⟨u, d, l, r⟩).1 ≠ 0 ∧
        (Engine.computeVelocity ⟨u, d, l, r⟩).2 = 0) ∨
      ((Engine.computeVelocity ⟨u, d, l, r⟩).1 = 0 ∧
        (Engine.computeVelocity ⟨u, d, l, r⟩).2 ≠ 0) →
      (Engine.computeVelocity ⟨u, d, l, r⟩).1 ^ 2 +
          (Engine.computeVelocity ⟨u, d, l, r⟩).2 ^ 2 = 1) ∧
    (∀ p : Player,
      (p.setVelocity (Engine.computeVelocity ⟨u, d, l, r⟩).1
          (Engine.computeVelocity ⟨u, d, l, r⟩).2).velocityX =
        (Engine.computeVelocity ⟨u, d, l, r⟩).1 ∧
      (p.setVelocity (Engine.computeVelocity ⟨u, d, l, r⟩).1
          (Engine.computeVelocity ⟨u, d, l, r⟩).2).velocityY =
        (Engine.computeVelocity ⟨u, d, l, r⟩).2) := by
  refine ⟨?_, ?_, fun p => ⟨rfl, rfl⟩⟩ <;>
    cases u <;> cases d <;> cases l <;> cases r <;>
    · intro h
      revert h
      norm_num [Engine.computeVelocity]

/-- Witness for C7's amended theorem at the up+right diagonal. -/
theorem diagonal_speed_approx_witness :
    ((Engine.computeVelocity ⟨true, false, false, true⟩).1 ≠ 0 ∧
       (Engine.computeVelocity ⟨true, false, false, true⟩).2 ≠ 0) ∧
    ((Engine.computeVelocity ⟨true, false, false, true⟩).1 ^ 2 +
        (Engine.computeVelocity ⟨true, false, false, true⟩).2 ^ 2 = 999698 / 1000000 ∧
     999 / 1000 < (Engine.computeVelocity ⟨true, false, false, true⟩).1 ^ 2 +
        (Engine.computeVelocity ⟨true, false, false, true⟩).2 ^ 2 ∧
     (Engine.computeVelocity ⟨true, false, false, true⟩).1 ^ 2 +
        (Engine.computeVelocity ⟨true, false, false, true⟩).2 ^ 2 < 1) :=
  ⟨by norm_num [Engine.computeVelocity],
   (diagonal_speed_approx true false false true).1
     (by norm_num [Engine.computeVelocity])⟩

/-! ## Cat companion entity, from src/client/src/game/Cat.js. -/

/-- The `Cat` class.  The `owner` back-reference is modelled by passing the
owner `Player` to `update` explicitly.  Fields driven only by `Math.random`
or `Date.now` and read only by rendering or vocalization (`meowTimer`,
`meowText`, `meowDisplayTimer`, `meowDuration`, `zzzOffset`, `zzzOpacity`,
`bounceOffset`, `bounceTimer`, `colors`, `width`, `height`) are omitted:
none of them is ever read by the movement or awake/asleep logic.  The
`dist` argument of `update` stands for the source's
`Math.sqrt(dx*dx + dy*dy)`; theorems characterize it by `0 ≤ dist` and
`dist ^ 2 = dx ^ 2 + dy ^ 2`, which determines it uniquely. -/
structure Cat where
  type : String
  name : String
  x : ℚ
  y : ℚ
  speed : ℚ
  direction : Nat
  isMoving : Bool
  followDistance : Nat
  targetX : ℚ
  targetY : ℚ
  animationFrame : Nat
  animationTimer : ℚ
  animationSpeed : ℚ
  isAwake : Bool
  idleTimer : ℚ
  sleepThreshold : ℚ
deriving DecidableEq, Repr

namespace Cat

/-- The `Cat` constructor. -/
def mkNew (type name : String) (owner : Player) : Cat :=
  { type := type, name := name
    x := owner.x - 50, y := owner.y
    speed := (4.5 : ℚ), direction := DIRECTIONS.DOWN, isMoving := false
    followDistance := 20
    targetX := owner.x - 50, targetY := owner.y
    animationFrame := 0, animationTimer := 0, animationSpeed := 100
    isAwake := true, idleTimer := 0, sleepThreshold := 10000 }

/-- The target the cat resamples each frame: the owner's history at the
fixed look-back offset. -/
def targetOf (c : Cat) (owner : Player) : HistoryEntry :=
  owner.getHistoricalPosition c.followDistance

/-- X displacement from the cat to its resampled target. -/
def dxTo (c : Cat) (owner : Player) : ℚ := (c.targetOf owner).x - c.x

/-- Y displacement from the cat to its resampled target. -/
def dyTo (c : Cat) (owner : Player) : ℚ := (c.targetOf owner).y - c.y

/-- `Cat.update`: resample the target, move toward it at fixed speed while
farther than 35 units (waking up and resetting the idle timer), otherwise
stop, accumulate idle time and fall asleep once the idle timer reaches the
10000 ms threshold. -/
def update (c : Cat) (owner : Player) (deltaTime dist : ℚ) : Cat :=
  let target := c.targetOf owner
  let dx := target.x - c.x
  let dy := target.y - c.y
  if dist > 35 then
    let nx := dx / dist
    let ny := dy / dist
    let direction :=
      if |dx| > |dy| then (if dx > 0 then DIRECTIONS.RIGHT else DIRECTIONS.LEFT)
      else (if dy > 0 then DIRECTIONS.DOWN else DIRECTIONS.UP)
    let anim : Nat × ℚ :=
      let t := c.animationTimer + deltaTime
      if t ≥ c.animationSpeed then ((c.animationFrame + 1) % 4, 0)
      else (c.animationFrame, t)
    { c with targetX := target.x, targetY := target.y
             isMoving := true, isAwake := true, idleTimer := 0
             x := c.x + nx * c.speed, y := c.y + ny * c.speed
             direction := direction
             animationFrame := anim.1, animationTimer := anim.2 }
  else
    let idleTimer := c.idleTimer + deltaTime
    { c with targetX := target.x, targetY := target.y
             isMoving := false, animationFrame := 0
             idleTimer := idleTimer
             isAwake := if idleTimer ≥ c.sleepThreshold then false else c.isAwake }

end Cat

/-! ## Cat trailing-follow convergence (claim C8). -/

/-- In the moving branch, the update advances the position along the
normalized displacement and flags the cat as moving. -/
theorem cat_update_moving (c : Cat) (owner : Player) (dt dist : ℚ)
    (hlt : 35 < dist) :
    (c.update owner dt dist).x = c.x + c.dxTo owner / dist * c.speed ∧
    (c.update owner dt dist).y = c.y + c.dyTo owner / dist * c.speed ∧
    (c.update owner dt dist).followDistance = c.followDistance ∧
    (c.update owner dt dist).isMoving = true ∧
    (c.update owner dt dist).isAwake = true ∧
    (c.update owner dt dist).idleTimer = 0 := by
  unfold Cat.update
  rw [if_pos hlt]
  exact ⟨rfl, rfl, rfl, rfl, rfl, rfl⟩

/-- In the stationary branch, the update stops the cat and accumulates idle
time, falling asleep at the threshold. -/
theorem cat_update_stationary (c : Cat) (owner : Player) (dt dist : ℚ)
    (hle : dist ≤ 35) :
    (c.update owner dt dist).isMoving = false ∧
    (c.update owner dt dist).idleTimer = c.idleTimer + dt ∧
    (c.update owner dt dist).isAwake =
      (if c.idleTimer + dt ≥ c.sleepThreshold then false else c.isAwake) := by
  unfold Cat.update
  rw [if_neg (not_lt.mpr hle)]
  exact ⟨rfl, rfl, rfl⟩

/-- Claim C8: with the owner's history stationary (the same owner state on
consecutive frames), while the cat's distance to the resampled target
exceeds 35 units, one update strictly decreases that distance: the new
squared displacement is exactly `(dist - 4.5) ^ 2` with
`0 ≤ dist - 4.5 < dist`; and on any frame where the distance is at most 35
the cat's `isMoving` becomes false on that same frame. -/
theorem cat_follow_step (c : Cat) (owner : Player) (dt dist : ℚ)
    (hsp : c.speed = 9 / 2) (_hd0 : 0 ≤ dist)
    (hd2 : dist ^ 2 = c.dxTo owner ^ 2 + c.dyTo owner ^ 2) :
    (35 < dist →
      (c.update owner dt dist).dxTo owner ^ 2 +
          (c.update owner dt dist).dyTo owner ^ 2 = (dist - 9 / 2) ^ 2 ∧
      0 ≤ dist - 9 / 2 ∧ dist - 9 / 2 < dist ∧
      (c.update owner dt dist).isMoving = true) ∧
    (dist ≤ 35 → (c.update owner dt dist).isMoving = false) := by
  constructor
  · intro hlt
    obtain ⟨hx, hy, hfd, hmov, -, -⟩ := cat_update_moving c owner dt dist hlt
    have hne : dist ≠ 0 := ne_of_gt (lt_trans (by norm_num) hlt)
    have htarget : (c.update owner dt dist).targetOf owner = c.targetOf owner := by
      unfold Cat.targetOf
      rw [hfd]
    have hdx' : (c.update owner dt dist).dxTo owner =
        c.dxTo owner - c.dxTo owner / dist * (9 / 2) := by
      unfold Cat.dxTo
      rw [htarget, hx, hsp]
      unfold Cat.dxTo
      ring
    have hdy' : (c.update owner dt dist).dyTo owner =
        c.dyTo owner - c.dyTo owner / dist * (9 / 2) := by
      unfold Cat.dyTo
      rw [htarget, hy, hsp]
      unfold Cat.dyTo
      ring
    refine ⟨?_, by linarith, by linarith, hmov⟩
    rw [hdx', hdy']
    have key : (c.dxTo owner - c.dxTo owner / dist * (9 / 2)) ^ 2 +
        (c.dyTo owner - c.dyTo owner / dist * (9 / 2)) ^ 2 =
        (c.dxTo owner ^ 2 + c.dyTo owner ^ 2) * ((dist - 9 / 2) / dist) ^ 2 := by
      field_simp
      ring
    rw [key, ← hd2]
    field_simp
    ring
  · intro hle
    exact (cat_update_stationary c owner dt dist hle).1

/-- Witness for C8: a freshly adopted cat 50 units behind its owner closes
the gap to `45.5` units in one frame and is flagged as moving. -/
theorem cat_follow_step_witness :
    ((Cat.mkNew "tabby" "Mia" (Player.mkNew "o" "Olive" 50 0 true)).speed = 9 / 2 ∧
     (0 : ℚ) ≤ 50 ∧
     (50 : ℚ) ^ 2 =
       (Cat.mkNew "tabby" "Mia" (Player.mkNew "o" "Olive" 50 0 true)).dxTo
           (Player.mkNew "o" "Olive" 50 0 true) ^ 2 +
         (Cat.mkNew "tabby" "Mia" (Player.mkNew "o" "Olive" 50 0 true)).dyTo
           (Player.mkNew "o" "Olive" 50 0 true) ^ 2 ∧
     (35 : ℚ) < 50) ∧
    (((Cat.mkNew "tabby" "Mia" (Player.mkNew "o" "Olive" 50 0 true)).update
          (Player.mkNew "o" "Olive" 50 0 true) 16 50).dxTo
        (Player.mkNew "o" "Olive" 50 0 true) ^ 2 +
      ((Cat.mkNew "tabby" "Mia" (Player.mkNew "o" "Olive" 50 0 true)).update
          (Player.mkNew "o" "Olive" 50 0 true) 16 50).dyTo
        (Player.mkNew "o" "Olive" 50 0 true) ^ 2 = ((50 : ℚ) - 9 / 2) ^ 2 ∧
     (0 : ℚ) ≤ 50 - 9 / 2 ∧ (50 : ℚ) - 9 / 2 < 50 ∧
     ((Cat.mkNew "tabby" "Mia" (Player.mkNew "o" "Olive" 50 0 true)).update
         (Player.mkNew "o" "Olive" 50 0 true) 16 50).isMoving = true) := by
  have hsp : (Cat.mkNew "tabby" "Mia" (Player.mkNew "o" "Olive" 50 0 true)).speed =
      9 / 2 := by
    norm_num [Cat.mkNew]
  have hd2 : (50 : ℚ) ^ 2 =
      (Cat.mkNew "tabby" "Mia" (Player.mkNew "o" "Olive" 50 0 true)).dxTo
          (Player.mkNew "o" "Olive" 50 0 true) ^ 2 +
        (Cat.mkNew "tabby" "Mia" (Player.mkNew "o" "Olive" 50 0 true)).dyTo
          (Player.mkNew "o" "Olive" 50 0 true) ^ 2 := by
    norm_num [Cat.dxTo, Cat.dyTo, Cat.targetOf, Cat.mkNew, Player.mkNew,
      Player.getHistoricalPosition]
  exact ⟨⟨hsp, by norm_num, hd2, by norm_num⟩,
    (cat_follow_step (Cat.mkNew "tabby" "Mia" (Player.mkNew "o" "Olive" 50 0 true))
        (Player.mkNew "o" "Olive" 50 0 true) 16 50 hsp (by norm_num) hd2).1
      (by norm_num)⟩

/-! ## Cat awake/asleep state machine (claim C9). -/

/-- Claim C9: the cat's `{awake, asleep}` machine.  A moving frame makes
the cat awake with its idle timer reset to 0; a stationary frame puts it
asleep exactly when the accumulated idle time reaches the 10000 ms
threshold (or it already slept); awake-to-asleep transitions happen only by
idle timeout, asleep-to-awake transitions only by resumed movement; the
relation `awake ↔ idle time < 10000` is an invariant of `update` and holds
for a newly constructed cat. -/
theorem cat_sleep_state_machine (c : Cat) (owner : Player) (dt dist : ℚ)
    (hdt : 0 ≤ dt) (hth : c.sleepThreshold = 10000) :
    ((c.isAwake = true ↔ c.idleTimer < 10000) →
      ((c.update owner dt dist).isAwake = true ↔
        (c.update owner dt dist).idleTimer < 10000)) ∧
    (35 < dist → (c.update owner dt dist).isAwake = true ∧
      (c.update owner dt dist).idleTimer = 0) ∧
    (dist ≤ 35 →
      ((c.update owner dt dist).isAwake = false ↔
        (10000 ≤ c.idleTimer + dt ∨ c.isAwake = false))) ∧
    (c.isAwake = true → (c.update owner dt dist).isAwake = false →
      dist ≤ 35 ∧ 10000 ≤ c.idleTimer + dt) ∧
    (c.isAwake = false → (c.update owner dt dist).isAwake = true → 35 < dist) ∧
    (∀ (t n : String) (o : Player),
      (Cat.mkNew t n o).isAwake = true ∧ (Cat.mkNew t n o).idleTimer = 0) := by
  rcases le_or_lt dist 35 with hle | hlt
  · obtain ⟨-, hidle, hawake⟩ := cat_update_stationary c owner dt dist hle
    rw [hth] at hawake
    refine ⟨?_, ?_, ?_, ?_, ?_, fun t n o => ⟨rfl, rfl⟩⟩
    · intro hinv
      rw [hawake, hidle]
      split
      · next hcross => simp; linarith
      · next hcross =>
        rw [hinv]
        constructor
        · intro; linarith [not_le.mp hcross]
        · intro; linarith
    · intro h; exact absurd h (not_lt.mpr hle)
    · intro _
      rw [hawake]
      split
      · next hcross => simp; exact Or.inl hcross
      · next hcross =>
        constructor
        · intro h; exact Or.inr h
        · rintro (h | h)
          · exact absurd h hcross
          · exact h
    · intro hwake hsleep
      rw [hawake] at hsleep
      refine ⟨hle, ?_⟩
      by_contra hlt'
      rw [if_neg hlt'] at hsleep
      rw [hwake] at hsleep
      simp at hsleep
    · intro hsleep hwake
      rw [hawake] at hwake
      split at hwake
      · exact absurd hwake (by simp)
      · rw [hsleep] at hwake
        exact absurd hwake (by simp)
  · obtain ⟨-, -, -, -, hawake, hidle⟩ := cat_update_moving c owner dt dist hlt
    refine ⟨?_, fun _ => ⟨hawake, hidle⟩, ?_, ?_, fun _ _ => hlt,
      fun t n o => ⟨rfl, rfl⟩⟩
    · intro _
      rw [hawake, hidle]
      simp
    · intro h; exact absurd hlt (not_lt.mpr h)
    · intro _ hsleep
      rw [hawake] at hsleep
      exact absurd hsleep (by simp)

/-- A concrete cat that has been idle for 9990 ms, used by the C9
witness. -/
def catIdleW : Cat :=
  { Cat.mkNew "tabby" "Mia" (Player.mkNew "o" "Olive" 50 0 true) with
    idleTimer := 9990 }

/-- Witness for C9: a cat idle for 9990 ms that receives a 16 ms stationary
frame crosses the threshold and falls asleep on that frame. -/
theorem cat_sleep_state_machine_witness :
    ((0 : ℚ) ≤ 16 ∧ catIdleW.sleepThreshold = 10000 ∧ (10 : ℚ) ≤ 35) ∧
    ((catIdleW.update (Player.mkNew "o" "Olive" 50 0 true) 16 10).isAwake = false ↔
      (10000 ≤ catIdleW.idleTimer + 16 ∨ catIdleW.isAwake = false)) :=
  ⟨⟨by norm_num, by norm_num [catIdleW, Cat.mkNew], by norm_num⟩,
   (cat_sleep_state_machine catIdleW
       (Player.mkNew "o" "Olive" 50 0 true) 16 10 (by norm_num)
       (by norm_num [catIdleW, Cat.mkNew])).2.2.1 (by norm_num)⟩

/-! ## Realtime session relay, from src/server/src/socket.js.

JS objects live on a heap: `ServerState.heap` maps allocation references to
player objects, the `players` Map maps ids to references, and each
connection's `currentPlayer` closure variable is a reference.  This mirrors
JS aliasing exactly: a second join by the same socket allocates a fresh
object and rebinds `currentPlayer`, and two sockets joining with the same
id make the Map entry point at the newer object while the older socket's
closure still aliases the old one. -/

/-- JS `a || b` on strings: the empty string is falsy. -/
def jsOr (s : Option String) (d : String) : String :=
  match s with
  | none => d
  | some v => if v = "" then d else v

/-- Cat payload `{ type, name }` carried by join and cat-update events. -/
structure CatInfo where
  type : String
  name : String
deriving DecidableEq, Repr

/-- A relay-side player entry, as built by the `player:join` handler. -/
structure ServerPlayer where
  id : String
  socketId : String
  nickname : String
  x : ℚ
  y : ℚ
  direction : ℚ
  isMoving : Bool
  cat : Option CatInfo
deriving DecidableEq, Repr

/-- `player:join` payload. -/
structure JoinData where
  id : String
  nickname : Option String
  x : ℚ
  y : ℚ
  cat : Option CatInfo
deriving DecidableEq, Repr

/-- `player:move` payload. -/
structure MoveData where
  x : ℚ
  y : ℚ
  direction : ℚ
  isMoving : Bool
deriving DecidableEq, Repr

/-- `flower:place` payload.  The server handler ignores `createdBy` and
substitutes the joined nickname (or the guest label). -/
structure FlowerPlaceData where
  x : ℚ
  y : ℚ
  imageData : String
  createdBy : String
deriving DecidableEq, Repr

/-- A stored flower record, in the in-memory branch of
src/server/src/routes/flowers.js.  `crypto.randomUUID()` and the ISO
timestamp are modelled by the store's serial counter. -/
structure Flower where
  id : Nat
  x : ℚ
  y : ℚ
  image_data : String
  created_by : String
  created_at : Nat
deriving DecidableEq, Repr

/-- Where an emitted event goes: `socket.emit`, `socket.broadcast.emit`, or
`io.emit`. -/
inductive Target where
  | toSocket (sid : String)
  | broadcastFrom (sid : String)
  | all
deriving DecidableEq, Repr

/-- Payload of a server-to-client event. -/
inductive Payload where
  | playersList (ps : List ServerPlayer)
  | player (p : ServerPlayer)
  | moved (id nickname : String) (x y direction : ℚ) (isMoving : Bool)
  | catUpdated (playerId : String) (cat : Option CatInfo)
  | count (n : Nat)
  | flower (f : Flower)
  | flowersList (fs : List Flower)
  | leftId (id : String)
deriving DecidableEq, Repr

/-- One emitted server-to-client event. -/
structure Emission where
  target : Target
  event : String
  payload : Payload
deriving DecidableEq, Repr

/-- Whether an emission is delivered to the connected socket `sid`. -/
def Emission.deliversTo (e : Emission) (sid : String) : Bool :=
  match e.target with
  | .toSocket s => sid == s
  | .broadcastFrom s => sid != s
  | .all => true

/-- Association-list get with JS-Map lookup semantics. -/
def assocGet {α β : Type} [DecidableEq α] : List (α × β) → α → Option β
  | [], _ => none
  | (k', v) :: rest, k => if k' = k then some v else assocGet rest k

/-- Association-list set with JS-Map semantics: an existing key keeps its
insertion position, a new key is appended. -/
def assocSet {α β : Type} [DecidableEq α] : List (α × β) → α → β → List (α × β)
  | [], k, v => [(k, v)]
  | (k', v') :: rest, k, v =>
    if k' = k then (k, v) :: rest else (k', v') :: assocSet rest k v

/-- Association-list delete (`Map.delete`). -/
def assocDelete {α β : Type} [DecidableEq α] (m : List (α × β)) (k : α) :
    List (α × β) :=
  m.filter (fun e => e.1 != k)

/-- The whole relay state: object heap, the module-level `players` Map,
the connected sockets with their `currentPlayer` closure variables, and the
in-memory flower store. -/
structure ServerState where
  heap : List (Nat × ServerPlayer)
  players : List (String × Nat)
  nextRef : Nat
  conns : List (String × Option Nat)
  flowers : List Flower
  nextFlowerId : Nat
deriving DecidableEq, Repr

/-- The state before any connection. -/
def initialServer : ServerState :=
  { heap := [], players := [], nextRef := 0, conns := [], flowers := []
    nextFlowerId := 0 }

namespace ServerState

/-- `Array.from(players.values())`: the registry's player objects in map
insertion order. -/
def mapValues (st : ServerState) : List ServerPlayer :=
  st.players.filterMap (fun e => assocGet st.heap e.2)

/-- The `currentPlayer` closure variable of a connected socket, when a join
has completed on it. -/
def currentPlayerRef (st : ServerState) (sid : String) : Option Nat :=
  match assocGet st.conns sid with
  | some (some r) => some r
  | _ => none

end ServerState

/-- `io.on('connection', ...)`: a new socket with `currentPlayer = null`. -/
def handleConnect (st : ServerState) (sid : String) : ServerState :=
  { st with conns := st.conns ++ [(sid, none)] }

/-- The `player:join` handler: allocate the entry, store it under the
client-supplied id, reply with the snapshot of all other registered
players, notify the others, broadcast the player count. -/
def handleJoin (st : ServerState) (sid : String) (data : JoinData) :
    ServerState × List Emission :=
  let p : ServerPlayer :=
    { id := data.id, socketId := sid, nickname := jsOr data.nickname "Guest"
      x := data.x, y := data.y, direction := 0, isMoving := false
      cat := data.cat }
  let r := st.nextRef
  let st' : ServerState :=
    { st with heap := st.heap ++ [(r, p)]
              players := assocSet st.players data.id r
              nextRef := r + 1
              conns := assocSet st.conns sid (some r) }
  let currentPlayers := st'.mapValues.filter (fun q => q.id != data.id)
  (st',
   [⟨.toSocket sid, "players:current", .playersList currentPlayers⟩,
    ⟨.broadcastFrom sid, "player:joined", .player p⟩,
    ⟨.all, "player:count", .count st'.players.length⟩])

/-- The `player:cat` handler: a no-op without a prior join, otherwise
mutate the stored entry's cat and fan out to the others. -/
def handleCat (st : ServerState) (sid : String) (catData : Option CatInfo) :
    ServerState × List Emission :=
  match st.currentPlayerRef sid with
  | none => (st, [])
  | some r =>
    match assocGet st.heap r with
    | none => (st, [])
    | some p =>
      ({ st with heap := assocSet st.heap r { p with cat := catData } },
       [⟨.broadcastFrom sid, "player:cat:updated", .catUpdated p.id catData⟩])

/-- The `player:move` handler: a no-op without a prior join, otherwise
mutate the stored entry's position fields and fan out to the others. -/
def handleMove (st : ServerState) (sid : String) (data : MoveData) :
    ServerState × List Emission :=
  match st.currentPlayerRef sid with
  | none => (st, [])
  | some r =>
    match assocGet st.heap r with
    | none => (st, [])
    | some p =>
      let p' : ServerPlayer :=
        { p with x := data.x, y := data.y, direction := data.direction
                 isMoving := data.isMoving }
      ({ st with heap := assocSet st.heap r p' },
       [⟨.broadcastFrom sid, "player:moved",
         .moved p.id p.nickname data.x data.y data.direction data.isMoving⟩])

/-- The `flowers:get` handler: reply with the whole flower store. -/
def handleFlowersGet (st : ServerState) (sid : String) :
    ServerState × List Emission :=
  (st, [⟨.toSocket sid, "flowers:all", .flowersList st.flowers⟩])

/-- The `flower:place` handler: persist via `createFlower` (in-memory
branch) with `createdBy` taken from the joined nickname — the guest label
when no join happened — then broadcast to everyone including the sender. -/
def handleFlowerPlace (st : ServerState) (sid : String)
    (data : FlowerPlaceData) : ServerState × List Emission :=
  let createdBy :=
    match (st.currentPlayerRef sid).bind (assocGet st.heap) with
    | some p => jsOr (some p.nickname) "Guest"
    | none => "Guest"
  let f : Flower :=
    { id := st.nextFlowerId, x := data.x, y := data.y
      image_data := data.imageData, created_by := createdBy
      created_at := st.nextFlowerId }
  ({ st with flowers := st.flowers ++ [f], nextFlowerId := st.nextFlowerId + 1 },
   [⟨.all, "flower:placed", .flower f⟩])

/-- The `disconnect` handler: drop the socket; when a join had completed,
delete the entry keyed by the id bound at join time and broadcast the leave
notification and the updated count. -/
def handleDisconnect (st : ServerState) (sid : String) :
    ServerState × List Emission :=
  match st.currentPlayerRef sid with
  | none => ({ st with conns := assocDelete st.conns sid }, [])
  | some r =>
    match assocGet st.heap r with
    | none => ({ st with conns := assocDelete st.conns sid }, [])
    | some p =>
      let players' := assocDelete st.players p.id
      ({ st with conns := assocDelete st.conns sid, players := players' },
       [⟨.all, "player:left", .leftId p.id⟩,
        ⟨.all, "player:count", .count players'.length⟩])

/-- A client-to-server event on an established connection. -/
inductive ClientEvent where
  | join (data : JoinData)
  | catUpdate (cat : Option CatInfo)
  | move (data : MoveData)
  | flowersGet
  | flowerPlace (data : FlowerPlaceData)
  | disconnect
deriving DecidableEq, Repr

/-- A top-level relay event: a new connection, or a message on one. -/
inductive ServerEvent where
  | connect (sid : String)
  | msg (sid : String) (ev : ClientEvent)
deriving DecidableEq, Repr

/-- Dispatch one event.  Messages from sockets that never connected have no
registered handlers and do nothing. -/
def stepServer (st : ServerState) (ev : ServerEvent) :
    ServerState × List Emission :=
  match ev with
  | .connect sid => (handleConnect st sid, [])
  | .msg sid ce =>
    match assocGet st.conns sid with
    | none => (st, [])
    | some _ =>
      match ce with
      | .join d => handleJoin st sid d
      | .catUpdate c => handleCat st sid c
      | .move d => handleMove st sid d
      | .flowersGet => handleFlowersGet st sid
      | .flowerPlace d => handleFlowerPlace st sid d
      | .disconnect => handleDisconnect st sid

/-- Run a sequence of relay events. -/
def runServer (st : ServerState) (evs : List ServerEvent) : ServerState :=
  evs.foldl (fun s e => (stepServer s e).1) st

/-- Every registry entry resolves to a live heap object whose `id` equals
its key (the handlers only ever store a player under its own id, and never
mutate the id). -/
def GoodState (st : ServerState) : Bool :=
  st.players.all (fun e =>
    match assocGet st.heap e.2 with
    | some p => p.id == e.1
    | none => false)

/-- The snapshots (`players:current` payloads) delivered to `sid` among a
list of emissions. -/
def snapshotsTo (ems : List Emission) (sid : String) : List (List ServerPlayer) :=
  ems.filterMap (fun e =>
    if e.deliversTo sid && (e.event == "players:current") then
      match e.payload with
      | .playersList ps => some ps
      | _ => none
    else none)

/-- The `player:moved` emissions delivered to `sid` among a list of
emissions. -/
def movedTo (ems : List Emission) (sid : String) : List Emission :=
  ems.filter (fun e => e.deliversTo sid && (e.event == "player:moved"))

/-! ## Association-list lemmas. -/

theorem assocGet_assocSet {α β : Type} [DecidableEq α] (m : List (α × β))
    (k k' : α) (v : β) :
    assocGet (assocSet m k v) k' = if k' = k then some v else assocGet m k' := by
  induction m with
  | nil =>
    by_cases h : k' = k
    · subst h
      simp [assocSet, assocGet]
    · simp only [assocSet, assocGet]
      rw [if_neg (fun hh => h hh.symm), if_neg h]
  | cons e rest ih =>
    obtain ⟨k0, v0⟩ := e
    by_cases h0 : k0 = k
    · subst h0
      simp only [assocSet, if_pos rfl]
      by_cases h : k' = k0
      · subst h
        simp [assocGet]
      · simp only [assocGet]
        rw [if_neg (fun hh => h hh.symm), if_neg h,
          if_neg (fun hh => h hh.symm)]
    · simp only [assocSet, if_neg h0]
      by_cases h1 : k0 = k'
      · subst h1
        rw [assocGet, if_pos rfl, if_neg h0, assocGet, if_pos rfl]
      · rw [assocGet, if_neg h1, ih]
        by_cases h2 : k' = k
        · rw [if_pos h2, if_pos h2]
        · rw [if_neg h2, if_neg h2, assocGet, if_neg h1]

theorem assocGet_append {α β : Type} [DecidableEq α] (l1 l2 : List (α × β))
    (k : α) :
    assocGet (l1 ++ l2) k =
      match assocGet l1 k with
      | some v => some v
      | none => assocGet l2 k := by
  induction l1 with
  | nil => simp [assocGet]
  | cons e rest ih =>
    by_cases h : e.1 = k <;> simp [assocGet, h, ih]

theorem assocGet_mem {α β : Type} [DecidableEq α] {m : List (α × β)} {k : α}
    {v : β} (h : assocGet m k = some v) : (k, v) ∈ m := by
  induction m with
  | nil => simp [assocGet] at h
  | cons e rest ih =>
    by_cases he : e.1 = k
    · rw [assocGet, if_pos he] at h
      obtain ⟨k0, v0⟩ := e
      obtain rfl : v0 = v := by simpa using h
      simp at he
      subst he
      exact List.mem_cons_self _ _
    · rw [assocGet, if_neg he] at h
      exact List.mem_cons_of_mem _ (ih h)

theorem assocDelete_cons {α β : Type} [DecidableEq α] (k0 : α) (v0 : β)
    (rest : List (α × β)) (k : α) :
    assocDelete ((k0, v0) :: rest) k =
      if k0 = k then assocDelete rest k else (k0, v0) :: assocDelete rest k := by
  by_cases h : k0 = k
  · subst h
    simp [assocDelete]
  · simp [assocDelete, h]

theorem assocGet_assocDelete {α β : Type} [DecidableEq α] (m : List (α × β))
    (k k' : α) :
    assocGet (assocDelete m k) k' =
      if k' = k then none else assocGet m k' := by
  induction m with
  | nil =>
    by_cases h : k' = k <;> simp [assocDelete, assocGet, h]
  | cons e rest ih =>
    obtain ⟨k0, v0⟩ := e
    rw [assocDelete_cons]
    by_cases h0 : k0 = k
    · rw [if_pos h0, ih]
      by_cases h : k' = k
      · rw [if_pos h, if_pos h]
      · rw [if_neg h, if_neg h, assocGet,
          if_neg (fun hh => h (h0 ▸ hh).symm)]
    · rw [if_neg h0]
      by_cases h1 : k0 = k'
      · rw [assocGet, if_pos h1, if_neg (fun hh => h0 (h1.trans hh)),
          assocGet, if_pos h1]
      · rw [assocGet, if_neg h1, ih]
        by_cases h2 : k' = k
        · rw [if_pos h2, if_pos h2]
        · rw [if_neg h2, if_neg h2, assocGet, if_neg h1]

/-! ## Claim C1: the join snapshot excludes the joiner and lists everyone
else. -/

/-- Claim C1: when a connection joins with id X, the `players:current`
snapshot the relay replies with to that connection is the only snapshot it
receives from the join, never contains an entry with id X, and contains the
player object of every other currently-registered id. -/
theorem join_snapshot_excludes_self (st : ServerState) (sid : String)
    (data : JoinData) (hg : GoodState st = true) :
    (snapshotsTo (handleJoin st sid data).2 sid).length = 1 ∧
    (∀ ps ∈ snapshotsTo (handleJoin st sid data).2 sid,
      (∀ p ∈ ps, p.id ≠ data.id) ∧
      (∀ (k : String) (r : Nat),
        assocGet (handleJoin st sid data).1.players k = some r →
        k ≠ data.id →
        ∃ p, assocGet (handleJoin st sid data).1.heap r = some p ∧ p ∈ ps)) := by
  have hsnap : snapshotsTo (handleJoin st sid data).2 sid =
      [(handleJoin st sid data).1.mapValues.filter (fun q => q.id != data.id)] := by
    simp [handleJoin, snapshotsTo, Emission.deliversTo]
  refine ⟨by rw [hsnap]; rfl, ?_⟩
  intro ps hps
  rw [hsnap] at hps
  obtain rfl : ps =
      (handleJoin st sid data).1.mapValues.filter (fun q => q.id != data.id) := by
    simpa using hps
  constructor
  · intro p hp
    have := (List.mem_filter.mp hp).2
    simpa using this
  · intro k r hget hkne
    have hget0 : assocGet st.players k = some r := by
      have : (handleJoin st sid data).1.players =
          assocSet st.players data.id st.nextRef := rfl
      rw [this, assocGet_assocSet, if_neg hkne] at hget
      exact hget
    have hmem : (k, r) ∈ st.players := assocGet_mem hget0
    have hok := List.all_eq_true.mp hg _ hmem
    obtain ⟨p, hp, hpid⟩ : ∃ p, assocGet st.heap r = some p ∧ p.id = k := by
      rcases hh : assocGet st.heap r with _ | p
      · rw [hh] at hok
        simp at hok
      · rw [hh] at hok
        exact ⟨p, rfl, by simpa using hok⟩
    refine ⟨p, ?_, ?_⟩
    · have hheap : (handleJoin st sid data).1.heap =
          st.heap ++ [(st.nextRef, _)] := rfl
      rw [hheap, assocGet_append, hp]
    · have hmem' : (k, r) ∈ (handleJoin st sid data).1.players :=
        assocGet_mem hget
      have hval : p ∈ (handleJoin st sid data).1.mapValues := by
        apply List.mem_filterMap.mpr
        refine ⟨(k, r), hmem', ?_⟩
        have hheap : (handleJoin st sid data).1.heap =
            st.heap ++ [(st.nextRef, _)] := rfl
        rw [hheap, assocGet_append, hp]
      apply List.mem_filter.mpr
      refine ⟨hval, ?_⟩
      simp [hpid, hkne]

/-- A concrete relay state for the C1 witness: sockets `s1`, `s2`
connected, `s1` joined as id `p9`. -/
def joinStateW : ServerState :=
  runServer initialServer
    [.connect "s1", .connect "s2",
     .msg "s1" (.join ⟨"p9", some "Ann", 0, 0, none⟩)]

/-- The join payload used by the C1 witness. -/
def joinDataW : JoinData := ⟨"p1", some "Bob", 0, 0, none⟩

/-- Witness for C1: socket `s2` joins as `p1` when `p9` is registered; the
single snapshot it receives excludes `p1` and covers every other id. -/
theorem join_snapshot_excludes_self_witness :
    GoodState joinStateW = true ∧
    ((snapshotsTo (handleJoin joinStateW "s2" joinDataW).2 "s2").length = 1 ∧
     (∀ ps ∈ snapshotsTo (handleJoin joinStateW "s2" joinDataW).2 "s2",
       (∀ p ∈ ps, p.id ≠ joinDataW.id) ∧
       (∀ (k : String) (r : Nat),
         assocGet (handleJoin joinStateW "s2" joinDataW).1.players k = some r →
         k ≠ joinDataW.id →
         ∃ p, assocGet (handleJoin joinStateW "s2" joinDataW).1.heap r = some p ∧
           p ∈ ps))) :=
  ⟨by decide, join_snapshot_excludes_self joinStateW "s2" joinDataW (by decide)⟩

/-! ## Claim C2: move fan-out reaches everyone else exactly once and never
echoes to the sender. -/

/-- Claim C2: when a joined connection sends a move, every other socket is
delivered exactly one `player:moved` emission, carrying the sender's
registered id and nickname and the sent coordinates, and the sender is
delivered none. -/
theorem move_fanout (st : ServerState) (sid : String) (data : MoveData)
    (r : Nat) (p : ServerPlayer)
    (hc : st.currentPlayerRef sid = some r)
    (hp : assocGet st.heap r = some p) :
    (∀ c : String, c ≠ sid →
      movedTo (stepServer st (.msg sid (.move data))).2 c =
        [⟨.broadcastFrom sid, "player:moved",
          .moved p.id p.nickname data.x data.y data.direction data.isMoving⟩]) ∧
    movedTo (stepServer st (.msg sid (.move data))).2 sid = [] := by
  have hconn : ∃ o, assocGet st.conns sid = some o := by
    unfold ServerState.currentPlayerRef at hc
    rcases hq : assocGet st.conns sid with _ | o
    · rw [hq] at hc
      simp at hc
    · exact ⟨o, rfl⟩
  obtain ⟨o, hq⟩ := hconn
  have hstep : stepServer st (.msg sid (.move data)) = handleMove st sid data := by
    simp [stepServer, hq]
  rw [hstep]
  have hmv : (handleMove st sid data).2 =
      [⟨.broadcastFrom sid, "player:moved",
        .moved p.id p.nickname data.x data.y data.direction data.isMoving⟩] := by
    simp [handleMove, hc, hp]
  rw [hmv]
  constructor
  · intro c hcne
    simp [movedTo, Emission.deliversTo, hcne]
  · simp [movedTo, Emission.deliversTo]

/-- A concrete relay state for the C2 witness: sockets `a` and `b` joined
with ids `ida`, `idb`. -/
def moveStateW : ServerState :=
  runServer initialServer
    [.connect "a", .connect "b",
     .msg "a" (.join ⟨"ida", some "Ann", 0, 0, none⟩),
     .msg "b" (.join ⟨"idb", some "Bob", 0, 0, none⟩)]

/-- Witness for C2: after `a` (joined as `ida`) sends `{x:10, y:20}`, `b`
is delivered exactly the one expected `player:moved` emission and `a` is
delivered none. -/
theorem move_fanout_witness :
    (moveStateW.currentPlayerRef "a" = some 0 ∧
     assocGet moveStateW.heap 0 =
       some ⟨"ida", "a", "Ann", 0, 0, 0, false, none⟩ ∧
     "b" ≠ "a") ∧
    movedTo (stepServer moveStateW (.msg "a" (.move ⟨10, 20, 0, true⟩))).2 "b" =
      [⟨.broadcastFrom "a", "player:moved",
        .moved "ida" "Ann" 10 20 0 true⟩] ∧
    movedTo (stepServer moveStateW (.msg "a" (.move ⟨10, 20, 0, true⟩))).2 "a" =
      [] :=
  ⟨⟨by decide, by decide, by decide⟩,
   (move_fanout moveStateW "a" ⟨10, 20, 0, true⟩ 0
       ⟨"ida", "a", "Ann", 0, 0, 0, false, none⟩ (by decide) (by decide)).1 "b"
     (by decide),
   (move_fanout moveStateW "a" ⟨10, 20, 0, true⟩ 0
       ⟨"ida", "a", "Ann", 0, 0, 0, false, none⟩ (by decide) (by decide)).2⟩

/-! ## Claim C3: the session-registry invariant. -/

theorem mem_keys_assocSet {α β : Type} [DecidableEq α] {m : List (α × β)}
    {k a : α} {v : β} (h : a ∈ (assocSet m k v).map Prod.fst) :
    a = k ∨ a ∈ m.map Prod.fst := by
  induction m with
  | nil =>
    simp [assocSet] at h
    exact Or.inl h
  | cons e rest ih =>
    obtain ⟨k0, v0⟩ := e
    by_cases h0 : k0 = k
    · rw [assocSet, if_pos h0, List.map_cons, List.mem_cons] at h
      rcases h with h | h
      · exact Or.inl h
      · exact Or.inr (by rw [List.map_cons, List.mem_cons]; exact Or.inr h)
    · rw [assocSet, if_neg h0, List.map_cons, List.mem_cons] at h
      rcases h with h | h
      · exact Or.inr (by rw [List.map_cons, List.mem_cons]; exact Or.inl h)
      · rcases ih h with h' | h'
        · exact Or.inl h'
        · exact Or.inr (by rw [List.map_cons, List.mem_cons]; exact Or.inr h')

theorem assocSet_keys_nodup {α β : Type} [DecidableEq α] {m : List (α × β)}
    (k : α) (v : β) (h : (m.map Prod.fst).Nodup) :
    ((assocSet m k v).map Prod.fst).Nodup := by
  induction m with
  | nil => simp [assocSet]
  | cons e rest ih =>
    obtain ⟨k0, v0⟩ := e
    rw [List.map_cons, List.nodup_cons] at h
    by_cases h0 : k0 = k
    · rw [assocSet, if_pos h0, List.map_cons, List.nodup_cons]
      exact ⟨h0 ▸ h.1, h.2⟩
    · rw [assocSet, if_neg h0, List.map_cons, List.nodup_cons]
      refine ⟨?_, ih h.2⟩
      intro hmem
      rcases mem_keys_assocSet hmem with h' | h'
      · exact h0 h'
      · exact h.1 h'

theorem assocDelete_keys_nodup {α β : Type} [DecidableEq α] (m : List (α × β))
    (k : α) (h : (m.map Prod.fst).Nodup) :
    ((assocDelete m k).map Prod.fst).Nodup :=
  h.sublist (List.Sublist.map Prod.fst (List.filter_sublist m))

theorem handleCat_players (st : ServerState) (sid : String)
    (c : Option CatInfo) : (handleCat st sid c).1.players = st.players := by
  unfold handleCat
  split
  · rfl
  · split
    · rfl
    · rfl

theorem handleMove_players (st : ServerState) (sid : String) (d : MoveData) :
    (handleMove st sid d).1.players = st.players := by
  unfold handleMove
  split
  · rfl
  · split
    · rfl
    · rfl

theorem handleFlowerPlace_players (st : ServerState) (sid : String)
    (d : FlowerPlaceData) : (handleFlowerPlace st sid d).1.players = st.players :=
  rfl

theorem handleDisconnect_players (st : ServerState) (sid : String) :
    (handleDisconnect st sid).1.players = st.players ∨
    ∃ i, (handleDisconnect st sid).1.players = assocDelete st.players i := by
  unfold handleDisconnect
  split
  · exact Or.inl rfl
  · split
    · exact Or.inl rfl
    · exact Or.inr ⟨_, rfl⟩

/-- One relay event preserves distinctness of the registry's keys. -/
theorem stepServer_keysNodup (st : ServerState) (ev : ServerEvent)
    (h : (st.players.map Prod.fst).Nodup) :
    (((stepServer st ev).1).players.map Prod.fst).Nodup := by
  cases ev with
  | connect sid => exact h
  | msg sid ce =>
    cases hq : assocGet st.conns sid with
    | none => simpa [stepServer, hq] using h
    | some o =>
      cases ce with
      | join d =>
        have : ((stepServer st (.msg sid (.join d))).1).players =
            assocSet st.players d.id st.nextRef := by
          simp [stepServer, hq, handleJoin]
        rw [this]
        exact assocSet_keys_nodup _ _ h
      | catUpdate c =>
        have : ((stepServer st (.msg sid (.catUpdate c))).1).players =
            st.players := by
          simp [stepServer, hq, handleCat_players]
        rw [this]
        exact h
      | move d =>
        have : ((stepServer st (.msg sid (.move d))).1).players = st.players := by
          simp [stepServer, hq, handleMove_players]
        rw [this]
        exact h
      | flowersGet =>
        have : ((stepServer st (.msg sid .flowersGet)).1).players =
            st.players := by
          simp [stepServer, hq, handleFlowersGet]
        rw [this]
        exact h
      | flowerPlace d =>
        have : ((stepServer st (.msg sid (.flowerPlace d))).1).players =
            st.players := by
          simp [stepServer, hq, handleFlowerPlace_players]
        rw [this]
        exact h
      | disconnect =>
        have hstep : stepServer st (.msg sid .disconnect) =
            handleDisconnect st sid := by
          simp [stepServer, hq]
        rw [hstep]
        rcases handleDisconnect_players st sid with hpl | ⟨i, hpl⟩
        · rw [hpl]; exact h
        · rw [hpl]; exact assocDelete_keys_nodup _ _ h

theorem runServer_keysNodup (evs : List ServerEvent) :
    ∀ st : ServerState, (st.players.map Prod.fst).Nodup →
      ((runServer st evs).players.map Prod.fst).Nodup := by
  induction evs with
  | nil => exact fun st h => h
  | cons e es ih =>
    intro st h
    exact ih _ (stepServer_keysNodup st e h)

/-- `true` when no event in the list is a join with id `i`. -/
def noJoinOf (i : String) (evs : List ServerEvent) : Bool :=
  evs.all (fun ev =>
    match ev with
    | .msg _ (.join d) => d.id != i
    | _ => true)

/-- One non-join-of-`i` relay event keeps an absent id absent. -/
theorem stepServer_absent (st : ServerState) (ev : ServerEvent) (i : String)
    (habs : assocGet st.players i = none)
    (hnj : ∀ sid d, ev = .msg sid (.join d) → d.id ≠ i) :
    assocGet ((stepServer st ev).1).players i = none := by
  cases ev with
  | connect sid => exact habs
  | msg sid ce =>
    cases hq : assocGet st.conns sid with
    | none => simpa [stepServer, hq] using habs
    | some o =>
      cases ce with
      | join d =>
        have hne : d.id ≠ i := hnj sid d rfl
        have : ((stepServer st (.msg sid (.join d))).1).players =
            assocSet st.players d.id st.nextRef := by
          simp [stepServer, hq, handleJoin]
        rw [this, assocGet_assocSet, if_neg (fun hh => hne hh.symm)]
        exact habs
      | catUpdate c =>
        have : ((stepServer st (.msg sid (.catUpdate c))).1).players =
            st.players := by
          simp [stepServer, hq, handleCat_players]
        rw [this]
        exact habs
      | move d =>
        have : ((stepServer st (.msg sid (.move d))).1).players = st.players := by
          simp [stepServer, hq, handleMove_players]
        rw [this]
        exact habs
      | flowersGet =>
        have : ((stepServer st (.msg sid .flowersGet)).1).players =
            st.players := by
          simp [stepServer, hq, handleFlowersGet]
        rw [this]
        exact habs
      | flowerPlace d =>
        have : ((stepServer st (.msg sid (.flowerPlace d))).1).players =
            st.players := by
          simp [stepServer, hq, handleFlowerPlace_players]
        rw [this]
        exact habs
      | disconnect =>
        have hstep : stepServer st (.msg sid .disconnect) =
            handleDisconnect st sid := by
          simp [stepServer, hq]
        rw [hstep]
        rcases handleDisconnect_players st sid with hpl | ⟨j, hpl⟩
        · rw [hpl]; exact habs
        · rw [hpl, assocGet_assocDelete]
          by_cases hij : i = j
          · rw [if_pos hij]
          · rw [if_neg hij]; exact habs

theorem runServer_absent (evs : List ServerEvent) :
    ∀ (st : ServerState) (i : String), assocGet st.players i = none →
      noJoinOf i evs = true → assocGet (runServer st evs).players i = none := by
  induction evs with
  | nil => exact fun st i h _ => h
  | cons e es ih =>
    intro st i habs hnj
    rw [noJoinOf, List.all_cons, Bool.and_eq_true] at hnj
    refine ih _ i (stepServer_absent st e i habs ?_) hnj.2
    intro sid d hev
    subst hev
    simpa using hnj.1

/-- Counterexample to claim C3 as stated: (a) a socket that sends join
twice with different ids leaves two registry entries for one connected
socket; (b) when two sockets join with the same id, the first socket's
disconnect deletes the entry even though the second socket is still
connected and bound to that id, and the second disconnect finds nothing
left to remove. -/
theorem session_registry_counterexample :
    ((runServer initialServer
        [.connect "s1",
         .msg "s1" (.join ⟨"x", some "Ann", 0, 0, none⟩),
         .msg "s1" (.join ⟨"y", some "Ann", 0, 0, none⟩)]).players.length = 2 ∧
     (runServer initialServer
        [.connect "s1",
         .msg "s1" (.join ⟨"x", some "Ann", 0, 0, none⟩),
         .msg "s1" (.join ⟨"y", some "Ann", 0, 0, none⟩)]).conns.length = 1) ∧
    ((runServer initialServer
        [.connect "s1", .connect "s2",
         .msg "s1" (.join ⟨"x", some "Ann", 0, 0, none⟩),
         .msg "s2" (.join ⟨"x", some "Bea", 0, 0, none⟩),
         .msg "s1" .disconnect]).players = [] ∧
     assocGet (runServer initialServer
        [.connect "s1", .connect "s2",
         .msg "s1" (.join ⟨"x", some "Ann", 0, 0, none⟩),
         .msg "s2" (.join ⟨"x", some "Bea", 0, 0, none⟩),
         .msg "s1" .disconnect]).conns "s2" = some (some 1) ∧
     assocGet (runServer initialServer
        [.connect "s1", .connect "s2",
         .msg "s1" (.join ⟨"x", some "Ann", 0, 0, none⟩),
         .msg "s2" (.join ⟨"x", some "Bea", 0, 0, none⟩),
         .msg "s1" .disconnect]).heap 1 =
       some ⟨"x", "s2", "Bea", 0, 0, 0, false, none⟩) := by
  refine ⟨⟨?_, ?_⟩, ?_, ?_, ?_⟩ <;> decide

/-- Claim C3 (amended): the registry, a JS Map, always has pairwise
distinct ids; a disconnect of a joined connection removes the id bound at
its last join; and an id absent from the registry stays absent under any
event sequence containing no further join with that id (so no later
snapshot can list it).  However a connection joining more than once leaves
its earlier id's entry behind, and two connections joining with the same id
share one entry, which is deleted by whichever of them disconnects first —
the claim's per-socket reading fails on those runs. -/
theorem session_registry_amended :
    (∀ evs : List ServerEvent,
      ((runServer initialServer evs).players.map Prod.fst).Nodup) ∧
    (∀ (st : ServerState) (sid : String) (r : Nat) (p : ServerPlayer),
      st.currentPlayerRef sid = some r → assocGet st.heap r = some p →
      assocGet (handleDisconnect st sid).1.players p.id = none) ∧
    (∀ (st : ServerState) (evs : List ServerEvent) (i : String),
      assocGet st.players i = none → noJoinOf i evs = true →
      assocGet (runServer st evs).players i = none) := by
  refine ⟨?_, ?_, ?_⟩
  · intro evs
    exact runServer_keysNodup evs initialServer (by simp [initialServer])
  · intro st sid r p hc hp
    simp [handleDisconnect, hc, hp, assocGet_assocDelete]
  · intro st evs i habs hnj
    exact runServer_absent evs st i habs hnj

/-- A concrete relay state for the C3 witness: socket `s1` joined as
`x`. -/
def discStateW : ServerState :=
  runServer initialServer
    [.connect "s1", .msg "s1" (.join ⟨"x", some "Ann", 0, 0, none⟩)]

/-- Witness for C3's amended theorem: disconnecting `s1` removes id `x`,
and `x` stays absent across a further join of a different id. -/
theorem session_registry_amended_witness :
    (discStateW.currentPlayerRef "s1" = some 0 ∧
     assocGet discStateW.heap 0 =
       some ⟨"x", "s1", "Ann", 0, 0, 0, false, none⟩) ∧
    assocGet (handleDisconnect discStateW "s1").1.players "x" = none ∧
    ((runServer initialServer
        [.connect "s2", .msg "s2" (.join ⟨"y", some "Bea", 0, 0, none⟩)]).players.map
      Prod.fst).Nodup :=
  ⟨⟨by decide, by decide⟩,
   session_registry_amended.2.1 discStateW "s1" 0
     ⟨"x", "s1", "Ann", 0, 0, 0, false, none⟩ (by decide) (by decide),
   session_registry_amended.1
     [.connect "s2", .msg "s2" (.join ⟨"y", some "Bea", 0, 0, none⟩)]⟩

/-! ## Claim C4: events received before a join. -/

/-- Counterexample to claim C4 as stated: a `flower:place` received on a
connected socket before any join is not a silent no-op — it emits a
`flower:placed` event, delivered to every connection including the
sender. -/
theorem prejoin_flower_place_counterexample :
    (stepServer (runServer initialServer [.connect "s1"])
       (.msg "s1" (.flowerPlace ⟨5, 5, "X", "a"⟩))).2 ≠ [] ∧
    ((stepServer (runServer initialServer [.connect "s1"])
        (.msg "s1" (.flowerPlace ⟨5, 5, "X", "a"⟩))).2.filter
      (fun e => e.deliversTo "s1" && (e.event == "flower:placed"))).length = 1 := by
  constructor <;> decide

/-- Claim C4 (amended): on a connected socket with no completed join, a
move, a cat-update and a bare disconnect are silent no-ops — the registry,
heap and flower store are unchanged and nothing is emitted (the disconnect
only drops the socket itself) — but a flower-place is not silenced: it
leaves the registry unchanged yet persists the flower with `created_by`
falling back to the guest label and broadcasts one `flower:placed` to all
connections. -/
theorem prejoin_events_amended (st : ServerState) (sid : String)
    (h : assocGet st.conns sid = some none) :
    (∀ d : MoveData, stepServer st (.msg sid (.move d)) = (st, [])) ∧
    (∀ c : Option CatInfo, stepServer st (.msg sid (.catUpdate c)) = (st, [])) ∧
    (stepServer st (.msg sid .disconnect) =
      ({ st with conns := assocDelete st.conns sid }, [])) ∧
    (∀ d : FlowerPlaceData,
      (stepServer st (.msg sid (.flowerPlace d))).1.players = st.players ∧
      (stepServer st (.msg sid (.flowerPlace d))).1.heap = st.heap ∧
      (stepServer st (.msg sid (.flowerPlace d))).2 =
        [⟨.all, "flower:placed",
          .flower ⟨st.nextFlowerId, d.x, d.y, d.imageData, "Guest",
                   st.nextFlowerId⟩⟩]) := by
  have hcur : st.currentPlayerRef sid = none := by
    unfold ServerState.currentPlayerRef
    rw [h]
  refine ⟨?_, ?_, ?_, ?_⟩
  · intro d
    simp [stepServer, h, handleMove, hcur]
  · intro c
    simp [stepServer, h, handleCat, hcur]
  · simp [stepServer, h, handleDisconnect, hcur]
  · intro d
    refine ⟨?_, ?_, ?_⟩ <;> simp [stepServer, h, handleFlowerPlace, hcur]

/-- A concrete relay state for the C4 witness: one connected socket that
never joined. -/
def prejoinStateW : ServerState := runServer initialServer [.connect "s1"]

/-- Witness for C4's amended theorem on the concrete pre-join socket. -/
theorem prejoin_events_amended_witness :
    assocGet prejoinStateW.conns "s1" = some none ∧
    stepServer prejoinStateW (.msg "s1" (.move ⟨10, 20, 0, true⟩)) =
      (prejoinStateW, []) ∧
    (stepServer prejoinStateW (.msg "s1" (.flowerPlace ⟨5, 5, "X", "a"⟩))).2 =
      [⟨.all, "flower:placed", .flower ⟨0, 5, 5, "X", "Guest", 0⟩⟩] :=
  ⟨by decide,
   (prejoin_events_amended prejoinStateW "s1" (by decide)).1 ⟨10, 20, 0, true⟩,
   ((prejoin_events_amended prejoinStateW "s1" (by decide)).2.2.2
     ⟨5, 5, "X", "a"⟩).2.2⟩

/-! ## Network client adapter, from src/client/src/network/SocketClient.js
(claim C10). -/

/-- The `SocketClient` connection state: the transport handle (null until
`connect` is called) and the `connected` flag.  The single-slot callback
hooks are plain data slots and are not needed by the claims. -/
structure SocketClient where
  socket : Option Unit
  connected : Bool
deriving DecidableEq, Repr

namespace SocketClient

/-- The `SocketClient` constructor. -/
def mkNew : SocketClient := { socket := none, connected := false }

/-- `sendPlayerMove`: emit `player:move` only when connected with a live
socket. -/
def sendPlayerMove {α : Type} (c : SocketClient) (playerData : α) :
    List (String × α) :=
  if c.connected && c.socket.isSome then [("player:move", playerData)] else []

/-- `sendFlowerPlaced`: emit `flower:place` only when connected with a live
socket. -/
def sendFlowerPlaced {α : Type} (c : SocketClient) (flowerData : α) :
    List (String × α) :=
  if c.connected && c.socket.isSome then [("flower:place", flowerData)] else []

/-- `requestFlowers`: emit `flowers:get` only when connected with a live
socket. -/
def requestFlowers (c : SocketClient) : List String :=
  if c.connected && c.socket.isSome then ["flowers:get"] else []

/-- The methods the `SocketClient` class defines, in source order. -/
def methodNames : List String :=
  ["connect", "disconnect", "sendPlayerMove", "sendFlowerPlaced",
   "requestFlowers", "getPlayerCount"]

end SocketClient

/-- The method name the cat-adoption callback in src/client/src/main.js
invokes on the socket client. -/
def catAdoptionCallbackMethod : String := "sendCatUpdate"

/-- Claim C10, against the code: the move, flower-place and flowers-request
senders exist and are no-ops when the adapter is not connected, but no
cat-update sender exists — the method main.js's cat-adoption callback
invokes is not among the class's methods, so that call throws at runtime
instead of being a never-throwing no-op. -/
theorem socket_client_senders (c : SocketClient) (hc : c.connected = false) :
    (∀ (α : Type) (d : α), c.sendPlayerMove d = []) ∧
    (∀ (α : Type) (d : α), c.sendFlowerPlaced d = []) ∧
    c.requestFlowers = [] ∧
    catAdoptionCallbackMethod ∉ SocketClient.methodNames := by
  refine ⟨?_, ?_, ?_, by decide⟩
  · intro α d
    simp [SocketClient.sendPlayerMove, hc]
  · intro α d
    simp [SocketClient.sendFlowerPlaced, hc]
  · simp [SocketClient.requestFlowers, hc]

/-- Witness for C10 on a freshly constructed (disconnected) client. -/
theorem socket_client_senders_witness :
    SocketClient.mkNew.connected = false ∧
    (SocketClient.mkNew.sendPlayerMove (42 : Nat) = [] ∧
     SocketClient.mkNew.sendFlowerPlaced (42 : Nat) = [] ∧
     SocketClient.mkNew.requestFlowers = [] ∧
     catAdoptionCallbackMethod ∉ SocketClient.methodNames) :=
  ⟨rfl,
   (socket_client_senders SocketClient.mkNew rfl).1 Nat 42,
   (socket_client_senders SocketClient.mkNew rfl).2.1 Nat 42,
   (socket_client_senders SocketClient.mkNew rfl).2.2.1,
   (socket_client_senders SocketClient.mkNew rfl).2.2.2⟩

end DigitalGarden
